import Mathlib

set_option maxRecDepth 100000

/-!
Verification of the rusefi web-serial protocol front end.

The development shallowly embeds the protocol core of the repository:

* the table-driven CRC-32 checksum and packet builder (`crc32.js`:
  `crc32Table`, `calculateCrc32`, `makeCrc32Packet`);
* the OpenBLT bootloader probe (`checkOpenBLT`);
* the identity (signature) handshake with its chunk-accumulation loop
  (`getSignature`), and the surrounding sequencer (`connectAndSendMessage`).

JavaScript 32-bit integers are modelled as `Nat` values denoting the unsigned
bit pattern of the JS number (explicit `% 2 ^ w`, `&&&`, `>>>` where overflow
matters); `Uint8Array` values are modelled as `List Nat` whose entries are byte
values; the asynchronous stream reads are modelled by the finite trace of
deliveries the stream makes available.
-/

/-! ### Checksum Engine (`crc32.js`) -/

/-- The reversed CRC-32 polynomial constant `CRC32_POLY = 0xEDB88320`. -/
def CRC32_POLY : Nat := 0xEDB88320

/-- One reduction step of the table-building inner loop:
`c = (c & 1) ? CRC32_POLY ^ (c >>> 1) : c >>> 1`. -/
def crcStep (c : Nat) : Nat :=
  if c &&& 1 = 1 then CRC32_POLY ^^^ (c >>> 1) else c >>> 1

/-- Entry `i` of the precomputed table `crc32Table`: eight reduction steps
applied to `i` (the table-building loop `for k < 8, c = crcStep c` starting
from `c = i`). -/
def crc32Table (i : Nat) : Nat := crcStep^[8] i

/-- The body of the data loop of `calculateCrc32`:
`crc = (crc >>> 8) ^ crc32Table[(crc ^ data[i]) & 0xFF]`. -/
def crc32Update (crc b : Nat) : Nat :=
  (crc >>> 8) ^^^ crc32Table ((crc ^^^ b) &&& 0xFF)

/-- The function `calculateCrc32(data)`: the register starts at `-1` (bit pattern
`0xFFFFFFFF`), each byte is folded in with `crc32Update`, and the final value
is `crc ^ (-1)`; the result is the unsigned 32-bit pattern of the JS return
value. -/
def calculateCrc32 (data : List Nat) : Nat :=
  (data.foldl crc32Update 0xFFFFFFFF) ^^^ 0xFFFFFFFF

/-! ### Reference CRC-32, following the specification's words

The specification describes the checksum as the standard reflected CRC-32:
initial register all-ones, each input byte XORed into the low byte of the
register followed by eight reductions with polynomial `0xEDB88320` applied at
the least-significant bit, final register bit-complemented.  The definitions
below transcribe that description; they deliberately use no lookup table. -/

/-- One reduction of the reference algorithm: shift right one bit and, if the
bit shifted out was set, XOR the polynomial `0xEDB88320` into the register. -/
def crc32RefStep (c : Nat) : Nat :=
  if c % 2 = 1 then (c / 2) ^^^ 0xEDB88320 else c / 2

/-- Reference processing of a single byte: XOR the byte into the register and
perform eight reductions. -/
def crc32RefByte (crc b : Nat) : Nat := crc32RefStep^[8] (crc ^^^ b)

/-- The reference reflected CRC-32 (poly `0xEDB88320`, initial register
`0xFFFFFFFF`, final XOR `0xFFFFFFFF`), written from the specification. -/
def crc32Reference (data : List Nat) : Nat :=
  (data.foldl crc32RefByte 0xFFFFFFFF) ^^^ 0xFFFFFFFF

/-! ### Packet Codec (`makeCrc32Packet` in `crc32.js`) -/

/-- Little-endian 16-bit field as written by `DataView.setUint16(off, v, true)`;
the value is reduced modulo `2 ^ 16` by the `ToUint16` conversion. -/
def u16LE (v : Nat) : List Nat := [v % 256, v / 256 % 256]

/-- Little-endian 32-bit field as written by `DataView.setUint32(off, v, true)`. -/
def u32LE (v : Nat) : List Nat :=
  [v % 256, v / 2 ^ 8 % 256, v / 2 ^ 16 % 256, v / 2 ^ 24 % 256]

/-- Little-endian decoding of a four-byte field (bytes 0..3 of the list). -/
def leDecodeU32 (l : List Nat) : Nat :=
  l.getD 0 0 + 2 ^ 8 * l.getD 1 0 + 2 ^ 16 * l.getD 2 0 + 2 ^ 24 * l.getD 3 0

/-- The function `makeCrc32Packet(command, payload)`: `contentToCrc` is the command byte
(`Uint8Array` assignment stores `command % 256`) followed by the payload; the
packet is the little-endian 16-bit length of `contentToCrc`, the content, and
the little-endian 32-bit CRC of the content. -/
def makeCrc32Packet (command : Nat) (payload : List Nat) : List Nat :=
  let contentToCrc : List Nat := command % 256 :: payload
  let crc : Nat := calculateCrc32 contentToCrc
  u16LE contentToCrc.length ++ contentToCrc ++ u32LE crc

/-- Failure taxonomy of the codec `encode` operation in the specification. -/
inductive EncodeError where
  | PayloadTooLarge
deriving DecidableEq

/-- Modelled from the spec: `encode(command: u8, payload: bytes)` builds the
wire Frame of section 3 and fails with `PayloadTooLarge` when the encoded
length `1 + len(payload)` does not fit the 16-bit length field. -/
def encodeSpec (command : Nat) (payload : List Nat) :
    Except EncodeError (List Nat) :=
  if 1 + payload.length > 0xFFFF then .error .PayloadTooLarge
  else .ok (u16LE (1 + payload.length) ++ command :: payload ++
      u32LE (calculateCrc32 (command :: payload)))

/-! ### Bootloader Probe (`checkOpenBLT`) -/

/-- Outcome of one `reader.read()` raced against the 500 ms timer: the timer
fired first (`timedOut`, the rejected promise is caught), the stream signalled
end-of-stream (`done` with no value), or a chunk of bytes was delivered. -/
inductive ReadResult where
  | timedOut
  | closed
  | data (value : List Nat)
deriving DecidableEq

/-- Classification produced by the bootloader probe. -/
inductive ProbeResult where
  | NotDetected
  | BootloaderDetected (major minor : Nat)
deriving DecidableEq

/-- The OpenBLT magic constant `[0x50, 0x00, 0x49, 0x00]`. -/
def openbltMagicNumber : List Nat := [0x50, 0x00, 0x49, 0x00]

/-- The probe `checkOpenBLT`, as a function of the outcome of its single raced read: a
timeout or end-of-stream (including the thrown-and-caught error paths) yields
`false`, as does a chunk of fewer than 8 bytes; otherwise bytes 0..3 are
compared with the magic constant and on full match the protocol version is
taken from bytes 4 and 5. -/
def checkOpenBLT (r : ReadResult) : ProbeResult :=
  match r with
  | .timedOut => .NotDetected
  | .closed => .NotDetected
  | .data value =>
    if value.length < 8 then .NotDetected
    else if (List.range 4).all
        (fun i => value.getD i 0 == openbltMagicNumber.getD i 0) then
      .BootloaderDetected (value.getD 4 0) (value.getD 5 0)
    else .NotDetected

/-! ### The accumulation loop of `getSignature` -/

/-- One event on the byte stream serving the accumulation loop: a delivered
chunk (the result of `reader.read()` with `done = false`), or the end-of-stream
signal (`done = true`). -/
inductive Delivery where
  | chunk (value : List Nat)
  | close
deriving DecidableEq

/-- Outcome of the accumulation loop.  `ok` is the filled buffer, `closed`
models the `done || !value` early return, `pending` means the trace of
available deliveries ran out while the loop was still awaiting its next
`reader.read()`, and `timedOut` is the outcome named by the specification's
`readExactly` taxonomy (the loop in the source contains no timer race, so no
run ever produces it). -/
inductive ReadExactlyResult where
  | ok (bytes : List Nat)
  | closed
  | pending
  | timedOut
deriving DecidableEq

/-- The operation `buf.set(src, offset)` on a `Uint8Array`: overwrite `src.length` entries of
`buf` starting at `offset` (in-range in every use below). -/
def uint8ArraySet (buf src : List Nat) (offset : Nat) : List Nat :=
  buf.take offset ++ src ++ buf.drop (offset + src.length)

/-- The loop `while (bytesRead < total) (do one read; on done return null;
copy value.slice(0, total - bytesRead) at bytesRead; bytesRead += value.length)`
from `getSignature`, run against the finite trace `ds` of available
deliveries. -/
def readBodyLoop (total : Nat) : List Delivery → List Nat → Nat → ReadExactlyResult
  | ds, buf, bytesRead =>
    if bytesRead < total then
      match ds with
      | [] => .pending
      | .close :: _ => .closed
      | .chunk value :: rest =>
          readBodyLoop total rest
            (uint8ArraySet buf (value.take (total - bytesRead)) bytesRead)
            (bytesRead + value.length)
    else .ok buf

/-- The accumulation loop started on the zero-filled buffer
`new Uint8Array(total)` with `bytesRead = 0`. -/
def readBody (total : Nat) (ds : List Delivery) : ReadExactlyResult :=
  readBodyLoop total ds (List.replicate total 0) 0

/-! ### `getSignature` and the sequencer `connectAndSendMessage` -/

/-- Behaviour of the device during the signature exchange: the outcome of the
raced first read (the length chunk) and the trace of deliveries available to
the body-accumulation loop. -/
structure DeviceBehavior where
  lengthRead : ReadResult
  bodyDeliveries : List Delivery
deriving DecidableEq

/-- Result of `getSignature`: the decoded signature bytes, the `null` return,
or `stuck` when the accumulation loop is left awaiting a read that never
resolves. -/
inductive SignatureOutcome where
  | sig (text : List Nat)
  | nullResult
  | stuck
deriving DecidableEq

/-- The `output.textContent` lines `getSignature` appends, one constructor per
distinct line (the `errorDuring` constructor covers the `catch` path's
`Error getting signature` line). -/
inductive LogEvent where
  | requestingSignature
  | sentRequest
  | failedLength
  | failedBody
  | receivedSignature (text : List Nat)
  | errorDuring
deriving DecidableEq

/-- The function `getSignature(writer, reader)` as a function of the device behaviour,
returning the log lines it appends and its outcome.  A timed-out first read
rejects and is caught (`errorDuring`); an end-of-stream first read leaves
`lengthBytes` undefined, so the `bytesToHex(lengthBytes)` call throws and is
caught on the same path; a chunk shorter than 2 bytes logs the length failure;
otherwise the little-endian length is decoded from bytes 0 and 1 and the body
loop reads `length + 4` bytes into a zero-filled buffer.  The `timedOut` arm of
the inner match is unreachable (`readBodyLoop` never produces it). -/
def getSignature (d : DeviceBehavior) : List LogEvent × SignatureOutcome :=
  match d.lengthRead with
  | .timedOut => ([.requestingSignature, .sentRequest, .errorDuring], .nullResult)
  | .closed => ([.requestingSignature, .sentRequest, .errorDuring], .nullResult)
  | .data lengthBytes =>
    if lengthBytes.length < 2 then
      ([.requestingSignature, .sentRequest, .failedLength], .nullResult)
    else
      let len := lengthBytes.getD 0 0 + 256 * lengthBytes.getD 1 0
      match readBody (len + 4) d.bodyDeliveries with
      | .ok responseBytes =>
          ([.requestingSignature, .sentRequest,
              .receivedSignature (responseBytes.take len)],
            .sig (responseBytes.take len))
      | .closed => ([.requestingSignature, .sentRequest, .failedBody], .nullResult)
      | .pending => ([.requestingSignature, .sentRequest], .stuck)
      | .timedOut => ([.requestingSignature, .sentRequest], .stuck)

/-- Observable protocol behaviour of one run of `connectAndSendMessage` up to
and including entry into the streaming read loop: the binary packets written
before streaming, the signature outcome (none on the bootloader path, where
`getSignature` is never called), whether the `Hello, World!` text was sent, and
whether the run reaches the `Listening for incoming data` loop. -/
structure SequencerTrace where
  binaryWrites : List (List Nat)
  signatureOutcome : Option SignatureOutcome
  sentHello : Bool
  streaming : Bool
deriving DecidableEq

/-- The protocol core of `connectAndSendMessage`: run the probe on the first
raced read; on detection, send nothing and enter streaming; otherwise call
`getSignature` (which first writes the command `0x41` CRC packet), send the
hello message only when the returned signature string is truthy (non-null and
non-empty), and enter streaming — unless the signature body loop never
resolves, in which case the `await` never returns and streaming is not
reached. -/
def connectAndSendMessage (probeRead : ReadResult) (d : DeviceBehavior) :
    SequencerTrace :=
  match checkOpenBLT probeRead with
  | .BootloaderDetected _ _ =>
      { binaryWrites := [], signatureOutcome := none,
        sentHello := false, streaming := true }
  | .NotDetected =>
      let r := getSignature d
      { binaryWrites := [makeCrc32Packet 0x41 []],
        signatureOutcome := some r.2,
        sentHello := match r.2 with | .sig t => !t.isEmpty | _ => false,
        streaming := match r.2 with | .stuck => false | _ => true }

example : calculateCrc32 [] = 0 := by decide
example :
    calculateCrc32 [0x31, 0x32, 0x33, 0x34, 0x35, 0x36, 0x37, 0x38, 0x39] =
      0xCBF43926 := by decide
example :
    crc32Reference [0x31, 0x32, 0x33, 0x34, 0x35, 0x36, 0x37, 0x38, 0x39] =
      0xCBF43926 := by decide
example :
    checkOpenBLT (.data [0x50, 0x00, 0x49, 0x00, 0x02, 0x01, 0xFF, 0xFF]) =
      .BootloaderDetected 2 1 := by decide
example : readBody 6 [.chunk [1, 2, 3], .chunk [4, 5], .chunk [6]] =
    .ok [1, 2, 3, 4, 5, 6] := by decide
example : readBody 6 [.chunk [1, 2, 3, 4]] = .pending := by decide
example : readBody 6 [.chunk [1, 2, 3, 4], .close] = .closed := by decide
example : readBody 6 [.chunk [1, 2, 3, 4, 5, 6, 7, 8]] = .ok [1, 2, 3, 4, 5, 6] := by decide

/-! ### Bit-level lemmas for the CRC-32 equivalence -/

theorem shiftRight_xor_distrib (a b n : Nat) :
    (a ^^^ b) >>> n = a >>> n ^^^ b >>> n := by
  apply Nat.eq_of_testBit_eq
  intro i
  simp

theorem xor_mod_two (a b : Nat) : (a ^^^ b) % 2 = a % 2 ^^^ b % 2 := by
  simp only [← Nat.and_one_is_mod]
  exact Nat.and_xor_distrib_right

theorem xor_left_comm (a b c : Nat) : a ^^^ (b ^^^ c) = b ^^^ (a ^^^ c) := by
  rw [← Nat.xor_assoc, Nat.xor_comm a b, Nat.xor_assoc]

theorem xor_xor_cancel (p x y : Nat) : (p ^^^ x) ^^^ (p ^^^ y) = x ^^^ y := by
  rw [Nat.xor_assoc, xor_left_comm x p y, ← Nat.xor_assoc, Nat.xor_self,
    Nat.zero_xor]

/-- The reduction step is linear over XOR. -/
theorem crcStep_xor (a b : Nat) : crcStep (a ^^^ b) = crcStep a ^^^ crcStep b := by
  unfold crcStep
  simp only [Nat.and_one_is_mod]
  rcases Nat.mod_two_eq_zero_or_one a with ha | ha <;>
    rcases Nat.mod_two_eq_zero_or_one b with hb | hb
  · have hab : (a ^^^ b) % 2 = 0 := by rw [xor_mod_two, ha, hb]; decide
    simp [ha, hb, hab, shiftRight_xor_distrib]
  · have hab : (a ^^^ b) % 2 = 1 := by rw [xor_mod_two, ha, hb]; decide
    simp only [ha, hb, hab, if_pos rfl]
    norm_num
    rw [shiftRight_xor_distrib, xor_left_comm]
  · have hab : (a ^^^ b) % 2 = 1 := by rw [xor_mod_two, ha, hb]; decide
    simp only [ha, hb, hab, if_pos rfl]
    norm_num
    rw [shiftRight_xor_distrib, Nat.xor_assoc]
  · have hab : (a ^^^ b) % 2 = 0 := by rw [xor_mod_two, ha, hb]; decide
    simp only [ha, hb, hab, if_pos rfl]
    norm_num
    rw [shiftRight_xor_distrib, xor_xor_cancel]

theorem crcStep_iterate_xor (n a b : Nat) :
    crcStep^[n] (a ^^^ b) = crcStep^[n] a ^^^ crcStep^[n] b := by
  induction n generalizing a b with
  | zero => simp
  | succ n ih =>
    rw [Function.iterate_succ_apply, Function.iterate_succ_apply,
      Function.iterate_succ_apply, crcStep_xor, ih]

theorem crcStep_two_mul (x : Nat) : crcStep (2 * x) = x := by
  unfold crcStep
  have h : 2 * x &&& 1 = 0 := by rw [Nat.and_one_is_mod]; omega
  rw [h]
  simp [Nat.shiftRight_one]

theorem crcStep_iterate_two_pow (n h : Nat) : crcStep^[n] (2 ^ n * h) = h := by
  induction n generalizing h with
  | zero => simp
  | succ n ih =>
    rw [Function.iterate_succ_apply]
    have e : 2 ^ (n + 1) * h = 2 * (2 ^ n * h) := by ring
    rw [e, crcStep_two_mul]
    exact ih h

/-- Splitting a natural number at bit 8 is an XOR decomposition. -/
theorem two_pow_mul_div_xor_mod (x : Nat) :
    2 ^ 8 * (x / 2 ^ 8) ^^^ x % 2 ^ 8 = x := by
  apply Nat.eq_of_testBit_eq
  intro i
  rw [Nat.testBit_xor, Nat.testBit_mul_pow_two, Nat.testBit_mod_two_pow]
  by_cases hi : i < 8
  · have h : ¬ i ≥ 8 := by omega
    simp [hi, h]
  · have h8 : i ≥ 8 := by omega
    have e : x / 2 ^ 8 = x >>> 8 := (Nat.shiftRight_eq_div_pow x 8).symm
    rw [e]
    simp [hi, h8, Nat.testBit_shiftRight]

theorem and_255_eq_mod (x : Nat) : x &&& 0xFF = x % 2 ^ 8 := by
  have e : (0xFF : Nat) = 2 ^ 8 - 1 := by norm_num
  rw [e, Nat.and_pow_two_sub_one_eq_mod]

/-- The table-driven byte step of the source equals eight bit-level reductions
of the register XORed with the (byte-sized) input. -/
theorem crc32Update_eq_iterate (crc b : Nat) (hb : b < 256) :
    crc32Update crc b = crcStep^[8] (crc ^^^ b) := by
  unfold crc32Update crc32Table
  have hb' : b < 2 ^ 8 := by omega
  have h1 : crc >>> 8 = (crc ^^^ b) >>> 8 := by
    rw [shiftRight_xor_distrib]
    have hz : b >>> 8 = 0 := by
      rw [Nat.shiftRight_eq_div_pow]
      exact Nat.div_eq_of_lt hb'
    rw [hz, Nat.xor_zero]
  rw [h1, and_255_eq_mod]
  conv_rhs => rw [← two_pow_mul_div_xor_mod (crc ^^^ b)]
  rw [crcStep_iterate_xor, crcStep_iterate_two_pow, Nat.shiftRight_eq_div_pow]

theorem crcStep_eq_refStep (c : Nat) : crcStep c = crc32RefStep c := by
  unfold crcStep crc32RefStep CRC32_POLY
  rw [Nat.and_one_is_mod, Nat.shiftRight_one]
  split
  · exact Nat.xor_comm _ _
  · rfl

theorem crcStep_iterate_eq_ref (n c : Nat) :
    crcStep^[n] c = crc32RefStep^[n] c := by
  have h : crcStep = crc32RefStep := funext crcStep_eq_refStep
  rw [h]

theorem foldl_update_eq_ref (data : List Nat) :
    ∀ init : Nat, (∀ b ∈ data, b < 256) →
      data.foldl crc32Update init = data.foldl crc32RefByte init := by
  induction data with
  | nil => intro init _; rfl
  | cons b rest ih =>
    intro init hb
    rw [List.foldl_cons, List.foldl_cons]
    have e : crc32Update init b = crc32RefByte init b := by
      unfold crc32RefByte
      rw [crc32Update_eq_iterate init b (hb b (List.mem_cons_self b rest))]
      exact crcStep_iterate_eq_ref 8 _
    rw [e]
    exact ih _ (fun x hx => hb x (List.mem_cons_of_mem b hx))

/-- Claim C1: for every byte sequence, `calculateCrc32` computes the standard
reflected CRC-32 with polynomial `0xEDB88320`, initial register `0xFFFFFFFF`
and final XOR `0xFFFFFFFF`; the checksum of the empty sequence is `0x00000000`
and the checksum of the ASCII bytes of the string of digits 1 through 9 is
`0xCBF43926`. -/
theorem C1_checksum_is_reference_crc32 :
    (∀ data : List Nat, (∀ b ∈ data, b < 256) →
        calculateCrc32 data = crc32Reference data) ∧
    calculateCrc32 [] = 0x00000000 ∧
    calculateCrc32 [0x31, 0x32, 0x33, 0x34, 0x35, 0x36, 0x37, 0x38, 0x39] =
      0xCBF43926 := by
  refine ⟨?_, by decide, by decide⟩
  intro data hdata
  unfold calculateCrc32 crc32Reference
  rw [foldl_update_eq_ref data 0xFFFFFFFF hdata]

/-- Witness for C1 at a concrete byte sequence. -/
theorem C1_checksum_is_reference_crc32_witness :
    calculateCrc32 [0x31, 0x32, 0x33] = crc32Reference [0x31, 0x32, 0x33] :=
  C1_checksum_is_reference_crc32.1 [0x31, 0x32, 0x33] (by decide)

/-! ### Range of the checksum and packet layout -/

theorem crcStep_lt {c : Nat} (hc : c < 2 ^ 32) : crcStep c < 2 ^ 32 := by
  unfold crcStep
  have h1 : c >>> 1 < 2 ^ 32 := by
    rw [Nat.shiftRight_one]
    exact Nat.lt_of_le_of_lt (Nat.div_le_self c 2) hc
  split
  · exact Nat.xor_lt_two_pow (by decide) h1
  · exact h1

theorem crcStep_iterate_lt (n : Nat) {c : Nat} (hc : c < 2 ^ 32) :
    crcStep^[n] c < 2 ^ 32 := by
  induction n generalizing c with
  | zero => simpa using hc
  | succ n ih =>
    rw [Function.iterate_succ_apply]
    exact ih (crcStep_lt hc)

theorem crc32Update_lt {crc : Nat} (b : Nat) (h : crc < 2 ^ 32) :
    crc32Update crc b < 2 ^ 32 := by
  unfold crc32Update crc32Table
  apply Nat.xor_lt_two_pow
  · rw [Nat.shiftRight_eq_div_pow]
    exact Nat.lt_of_le_of_lt (Nat.div_le_self _ _) h
  · apply crcStep_iterate_lt
    exact Nat.lt_of_lt_of_le (Nat.and_lt_two_pow _ (by decide : (0xFF : Nat) < 2 ^ 8))
      (by norm_num)

theorem foldl_update_lt (data : List Nat) :
    ∀ init : Nat, init < 2 ^ 32 → data.foldl crc32Update init < 2 ^ 32 := by
  induction data with
  | nil => intro init h; simpa using h
  | cons b rest ih =>
    intro init h
    rw [List.foldl_cons]
    exact ih _ (crc32Update_lt b h)

/-- The checksum always fits an unsigned 32-bit field. -/
theorem calculateCrc32_lt (data : List Nat) : calculateCrc32 data < 2 ^ 32 := by
  unfold calculateCrc32
  exact Nat.xor_lt_two_pow (foldl_update_lt data 0xFFFFFFFF (by decide)) (by decide)

/-- Little-endian round trip for 32-bit values. -/
theorem leDecode_u32LE {v : Nat} (hv : v < 2 ^ 32) :
    leDecodeU32 (u32LE v) = v := by
  simp only [u32LE, leDecodeU32, List.getD_cons_zero, List.getD_cons_succ]
  norm_num
  omega

/-- Closed form of the packet for an in-range command byte. -/
theorem makeCrc32Packet_eq (c : Nat) (p : List Nat) (hc : c < 256) :
    makeCrc32Packet c p =
      u16LE (1 + p.length) ++ c :: p ++ u32LE (calculateCrc32 (c :: p)) := by
  simp only [makeCrc32Packet, Nat.mod_eq_of_lt hc, List.length_cons]
  rw [Nat.add_comm]

/-- Claim C2: the packet is exactly a little-endian u16 length equal to
`1 + len(payload)`, the command byte, the payload, then a little-endian u32
checksum over command concatenated with payload; the length field counts
neither itself nor the checksum field. -/
theorem C2_makeCrc32Packet_layout (c : Nat) (p : List Nat)
    (hc : c < 256) (hlen : 1 + p.length ≤ 0xFFFF) :
    makeCrc32Packet c p =
      u16LE (1 + p.length) ++ c :: p ++ u32LE (calculateCrc32 (c :: p)) ∧
    (makeCrc32Packet c p).length = 7 + p.length ∧
    (makeCrc32Packet c p).getD 0 0 + 256 * (makeCrc32Packet c p).getD 1 0 =
      1 + p.length ∧
    (makeCrc32Packet c p).getD 2 0 = c ∧
    ((makeCrc32Packet c p).drop 3).take p.length = p ∧
    (makeCrc32Packet c p).drop (3 + p.length) =
      u32LE (calculateCrc32 (c :: p)) ∧
    leDecodeU32 ((makeCrc32Packet c p).drop (3 + p.length)) =
      calculateCrc32 (c :: p) := by
  have hpkt := makeCrc32Packet_eq c p hc
  have hcrc := calculateCrc32_lt (c :: p)
  have hlength : (makeCrc32Packet c p).length = 7 + p.length := by
    rw [hpkt]
    simp [u16LE, u32LE]
    omega
  have hfield :
      (makeCrc32Packet c p).getD 0 0 + 256 * (makeCrc32Packet c p).getD 1 0 =
        1 + p.length := by
    rw [hpkt]
    simp only [u16LE, List.cons_append, List.getD_cons_zero, List.getD_cons_succ]
    omega
  have hcmd : (makeCrc32Packet c p).getD 2 0 = c := by
    rw [hpkt]
    simp [u16LE, List.cons_append, List.getD_cons_zero, List.getD_cons_succ]
  have hpay : ((makeCrc32Packet c p).drop 3).take p.length = p := by
    rw [hpkt]
    simp only [u16LE, List.cons_append, List.drop_succ_cons, List.drop_zero]
    exact List.take_left p _
  have htail : (makeCrc32Packet c p).drop (3 + p.length) =
      u32LE (calculateCrc32 (c :: p)) := by
    rw [hpkt, ← List.drop_drop]
    simp only [u16LE, List.cons_append, List.drop_succ_cons, List.drop_zero]
    exact List.drop_left p _
  have hdec : leDecodeU32 ((makeCrc32Packet c p).drop (3 + p.length)) =
      calculateCrc32 (c :: p) := by
    rw [htail]
    exact leDecode_u32LE hcrc
  exact ⟨hpkt, hlength, hfield, hcmd, hpay, htail, hdec⟩

/-- Witness for C2 at command `0x41` and payload `[1, 2]`. -/
theorem C2_makeCrc32Packet_layout_witness :
    makeCrc32Packet 0x41 [1, 2] =
      u16LE (1 + [1, 2].length) ++ 0x41 :: [1, 2] ++
        u32LE (calculateCrc32 (0x41 :: [1, 2])) ∧
    (makeCrc32Packet 0x41 [1, 2]).length = 7 + [1, 2].length ∧
    (makeCrc32Packet 0x41 [1, 2]).getD 0 0 +
        256 * (makeCrc32Packet 0x41 [1, 2]).getD 1 0 = 1 + [1, 2].length ∧
    (makeCrc32Packet 0x41 [1, 2]).getD 2 0 = 0x41 ∧
    ((makeCrc32Packet 0x41 [1, 2]).drop 3).take [1, 2].length = [1, 2] ∧
    (makeCrc32Packet 0x41 [1, 2]).drop (3 + [1, 2].length) =
      u32LE (calculateCrc32 (0x41 :: [1, 2])) ∧
    leDecodeU32 ((makeCrc32Packet 0x41 [1, 2]).drop (3 + [1, 2].length)) =
      calculateCrc32 (0x41 :: [1, 2]) :=
  C2_makeCrc32Packet_layout 0x41 [1, 2] (by decide) (by decide)

/-! ### Claim C7: behaviour on oversized payloads -/

theorem take_two_cons_cons (x y : Nat) (l : List Nat) :
    List.take 2 (x :: y :: l) = [x, y] := rfl

/-- Fully unfolded shape of the packet. -/
theorem makeCrc32Packet_shape (c : Nat) (p : List Nat) :
    makeCrc32Packet c p =
      (p.length + 1) % 256 :: (p.length + 1) / 256 % 256 ::
        (c % 256 :: (p ++ u32LE (calculateCrc32 (c % 256 :: p)))) := by
  simp [makeCrc32Packet, u16LE]

theorem makeCrc32Packet_length (c : Nat) (p : List Nat) :
    (makeCrc32Packet c p).length = 7 + p.length := by
  rw [makeCrc32Packet_shape]
  simp [u32LE]
  omega

theorem makeCrc32Packet_take_two (c : Nat) (p : List Nat) :
    (makeCrc32Packet c p).take 2 =
      [(1 + p.length) % 256, (1 + p.length) / 256 % 256] := by
  rw [makeCrc32Packet_shape, take_two_cons_cons, Nat.add_comm 1 p.length]

/-- Counterexample to claim C7: for a payload of 65535 bytes (encoded length
`1 + 65535 = 0x10000`), the specification's `encode` fails with
`PayloadTooLarge`, but `makeCrc32Packet` does not fail: it returns a full
packet whose 16-bit length field has silently wrapped to `0x0000`. -/
theorem C7_counterexample :
    encodeSpec 0x41 (List.replicate 65535 0) = .error .PayloadTooLarge ∧
    (makeCrc32Packet 0x41 (List.replicate 65535 0)).length = 65542 ∧
    (makeCrc32Packet 0x41 (List.replicate 65535 0)).take 2 = [0, 0] := by
  refine ⟨?_, ?_, ?_⟩
  · have hcond : 1 + (List.replicate 65535 (0 : Nat)).length > 0xFFFF := by
      rw [List.length_replicate]
      decide
    unfold encodeSpec
    rw [if_pos hcond]
  · rw [makeCrc32Packet_length, List.length_replicate]
  · rw [makeCrc32Packet_take_two, List.length_replicate]

/-- Claim C7 (amended): `makeCrc32Packet` never fails — for every command and
payload it returns a complete packet, and the 16-bit length field holds
`(1 + len(payload)) mod 2 ^ 16`, silently truncated whenever the encoded
length exceeds `0xFFFF`. -/
theorem C7_encode_total_truncates (c : Nat) (p : List Nat) :
    (makeCrc32Packet c p).length = 7 + p.length ∧
    (makeCrc32Packet c p).take 2 =
      [(1 + p.length) % 256, (1 + p.length) / 256 % 256] ∧
    (makeCrc32Packet c p).getD 0 0 + 256 * (makeCrc32Packet c p).getD 1 0 =
      (1 + p.length) % 2 ^ 16 := by
  refine ⟨makeCrc32Packet_length c p, makeCrc32Packet_take_two c p, ?_⟩
  rw [makeCrc32Packet_shape]
  simp only [List.getD_cons_zero, List.getD_cons_succ]
  omega

/-! ### Stepping lemmas for the accumulation loop -/

theorem readBodyLoop_nil (total : Nat) (buf : List Nat) (k : Nat)
    (h : k < total) : readBodyLoop total [] buf k = .pending := by
  rw [readBodyLoop.eq_def]
  simp [h]

theorem readBodyLoop_close (total : Nat) (rest : List Delivery)
    (buf : List Nat) (k : Nat) (h : k < total) :
    readBodyLoop total (.close :: rest) buf k = .closed := by
  rw [readBodyLoop.eq_def]
  simp [h]

theorem readBodyLoop_chunk (total : Nat) (v : List Nat) (rest : List Delivery)
    (buf : List Nat) (k : Nat) (h : k < total) :
    readBodyLoop total (.chunk v :: rest) buf k =
      readBodyLoop total rest (uint8ArraySet buf (v.take (total - k)) k)
        (k + v.length) := by
  rw [readBodyLoop.eq_def]
  simp [h]

theorem readBodyLoop_exit (total : Nat) (ds : List Delivery) (buf : List Nat)
    (k : Nat) (h : ¬ k < total) : readBodyLoop total ds buf k = .ok buf := by
  rw [readBodyLoop.eq_def]
  simp [h]

/-- Invariant of the accumulation loop: when the remaining deliveries supply
at least the still-needed bytes, the loop returns the processed part of the
buffer followed by exactly the still-needed prefix of the remaining bytes. -/
theorem readBodyLoop_ok (n : Nat) (chunks : List (List Nat)) :
    ∀ (j : Nat) (buf : List Nat),
      buf.length = n → j ≤ n → n - j ≤ chunks.flatten.length →
      readBodyLoop n (chunks.map Delivery.chunk) buf j =
        .ok (buf.take j ++ chunks.flatten.take (n - j)) := by
  induction chunks with
  | nil =>
    intro j buf hbuf hj hflat
    have hjn : j = n := by
      simp only [List.flatten_nil, List.length_nil] at hflat
      omega
    rw [readBodyLoop_exit n _ buf j (by omega), hjn, Nat.sub_self]
    simp [List.take_of_length_le (Nat.le_of_eq hbuf)]
  | cons v rest ih =>
    intro j buf hbuf hj hflat
    simp only [List.map_cons]
    rcases Nat.lt_or_ge j n with hjn | hjn
    · rw [readBodyLoop_chunk n v _ buf j hjn]
      by_cases hfit : v.length < n - j
      · have hvtake : v.take (n - j) = v :=
          List.take_of_length_le (Nat.le_of_lt hfit)
        have hlen' : (uint8ArraySet buf (v.take (n - j)) j).length = n := by
          rw [hvtake, uint8ArraySet]
          simp only [List.length_append, List.length_take, List.length_drop,
            hbuf]
          omega
        have hle' : j + v.length ≤ n := by omega
        have hflat' : n - (j + v.length) ≤ rest.flatten.length := by
          simp only [List.flatten_cons, List.length_append] at hflat
          omega
        rw [ih (j + v.length) _ hlen' hle' hflat']
        congr 1
        have hl : (buf.take j ++ v).length = j + v.length := by
          simp only [List.length_append, List.length_take, hbuf]
          omega
        rw [hvtake, uint8ArraySet]
        have hpref : List.take (j + v.length)
            (List.take j buf ++ v ++ List.drop (j + v.length) buf) =
              List.take j buf ++ v := List.take_left' hl
        rw [hpref, List.flatten_cons, List.take_append_eq_append_take,
          List.take_of_length_le (show v.length ≤ n - j by omega),
          ← Nat.sub_sub, List.append_assoc]
      · rw [readBodyLoop_exit n _ _ _ (by omega)]
        congr 1
        rw [uint8ArraySet, List.flatten_cons,
          List.take_append_of_le_length (show n - j ≤ v.length by omega)]
        have hlt : (v.take (n - j)).length = n - j := by
          simp only [List.length_take]
          omega
        rw [hlt]
        have hdrop : buf.drop (j + (n - j)) = [] := by
          apply List.drop_eq_nil_of_le
          rw [hbuf]
          omega
        rw [hdrop]
        simp
    · rw [readBodyLoop_exit n _ buf j (by omega)]
      have hj0 : n - j = 0 := by omega
      have hjn' : j = n := by omega
      subst hjn'
      rw [hj0]
      simp [List.take_of_length_le (Nat.le_of_eq hbuf)]

/-- Claim C4: the loop accumulates successive deliveries in order — deliveries
of 3, 2 and 1 bytes for a request of 6 produce the concatenation of the three
chunks, of length exactly 6 — and an end-of-stream signal after only 4 of 6
bytes yields `closed` rather than a partial result. -/
theorem C4_readExactly_accumulates :
    (∀ a b c : List Nat, a.length = 3 → b.length = 2 → c.length = 1 →
      readBody 6 [.chunk a, .chunk b, .chunk c] = .ok (a ++ b ++ c) ∧
      (a ++ b ++ c).length = 6) ∧
    (∀ a : List Nat, a.length = 4 →
      readBody 6 [.chunk a, .close] = .closed) := by
  constructor
  · intro a b c ha hb hc
    obtain ⟨a0, a1, a2, rfl⟩ := List.length_eq_three.mp ha
    obtain ⟨b0, b1, rfl⟩ := List.length_eq_two.mp hb
    obtain ⟨c0, rfl⟩ := List.length_eq_one.mp hc
    exact ⟨rfl, rfl⟩
  · intro a ha
    show readBodyLoop 6 [.chunk a, .close] (List.replicate 6 0) 0 = .closed
    rw [readBodyLoop_chunk 6 a _ _ 0 (by omega)]
    rw [readBodyLoop_close 6 _ _ _ (by omega)]

/-- Witness for C4 at concrete deliveries `[1,2,3]`, `[4,5]`, `[6]`. -/
theorem C4_readExactly_accumulates_witness :
    readBody 6 [.chunk [1, 2, 3], .chunk [4, 5], .chunk [6]] =
      .ok ([1, 2, 3] ++ [4, 5] ++ [6]) ∧
    (([1, 2, 3] ++ [4, 5] ++ [6] : List Nat)).length = 6 :=
  C4_readExactly_accumulates.1 [1, 2, 3] [4, 5] [6] rfl rfl rfl

/-- Claim C10: whenever the concatenated deliveries reach at least `n` bytes,
the loop terminates and the assembled buffer is exactly the first `n` bytes of
the concatenation — only the still-needed prefix of each chunk is copied into
the fixed-size buffer and over-delivered excess in the final chunk is
discarded. -/
theorem C10_readBody_take (n : Nat) (chunks : List (List Nat))
    (h : n ≤ chunks.flatten.length) :
    readBody n (chunks.map Delivery.chunk) = .ok (chunks.flatten.take n) := by
  have hres := readBodyLoop_ok n chunks 0 (List.replicate n 0)
    (by simp) (Nat.zero_le n) (by simpa using h)
  simpa using hres

/-- Witness for C10: a final chunk that over-delivers (8 bytes against the 3
still needed) is sliced, and the result is the first 6 bytes of the
concatenation. -/
theorem C10_readBody_take_witness :
    readBody 6 ([[1, 2, 3], [4, 5, 6, 7, 8]].map Delivery.chunk) =
      .ok ([[1, 2, 3], [4, 5, 6, 7, 8]].flatten.take 6) :=
  C10_readBody_take 6 [[1, 2, 3], [4, 5, 6, 7, 8]] (by decide)

/-- Counterexample to claim C5: a source that delivers 4 bytes of a 6-byte
body and then stops (without closing the stream) leaves the loop awaiting a
read that never resolves — the outcome is `pending`, not `TimedOut`, and the
surrounding `getSignature` is stuck rather than timing out. -/
theorem C5_counterexample :
    readBody 6 [.chunk [1, 2, 3, 4]] = .pending ∧
    readBody 6 [.chunk [1, 2, 3, 4]] ≠ .timedOut ∧
    getSignature ⟨.data [2, 0], [.chunk [1, 2, 3, 4]]⟩ =
      ([.requestingSignature, .sentRequest], .stuck) :=
  ⟨by decide, by decide, by decide⟩

/-- Claim C5 (amended): on every finite trace of available deliveries the
accumulation loop terminates with the buffer filled (`ok`), with `closed`, or
still `pending` on the next read; it never produces `TimedOut`, because the
loop carries no deadline — a source that stops delivering mid-body leaves the
read waiting indefinitely. -/
theorem C5_loop_outcomes (total : Nat) (ds : List Delivery) :
    ∀ (buf : List Nat) (k : Nat),
      (∃ b, readBodyLoop total ds buf k = .ok b) ∨
      readBodyLoop total ds buf k = .closed ∨
      readBodyLoop total ds buf k = .pending := by
  induction ds with
  | nil =>
    intro buf k
    by_cases h : k < total
    · right; right; exact readBodyLoop_nil total buf k h
    · left; exact ⟨buf, readBodyLoop_exit total [] buf k h⟩
  | cons d rest ih =>
    intro buf k
    by_cases h : k < total
    · cases d with
      | close => right; left; exact readBodyLoop_close total rest buf k h
      | chunk v =>
        rw [readBodyLoop_chunk total v rest buf k h]
        exact ih _ _
    · left; exact ⟨buf, readBodyLoop_exit total (d :: rest) buf k h⟩

/-! ### Claim C3: bootloader probe classification -/

/-- Claim C3: the probe classifies `NotDetected` on a timed-out read, on
end-of-stream, and on any chunk of fewer than 8 bytes; it classifies
`NotDetected` whenever one of bytes 0..3 differs from the magic constant; and
on a chunk of at least 8 bytes whose bytes 0..3 equal the magic constant it
classifies `BootloaderDetected` with major = byte 4 and minor = byte 5 — in
particular header `50 00 49 00 02 01 FF FF` gives major 2, minor 1. -/
theorem C3_checkOpenBLT_classification :
    checkOpenBLT .timedOut = .NotDetected ∧
    checkOpenBLT .closed = .NotDetected ∧
    (∀ v : List Nat, v.length < 8 → checkOpenBLT (.data v) = .NotDetected) ∧
    (∀ (v : List Nat) (i : Nat), i < 4 →
      v.getD i 0 ≠ openbltMagicNumber.getD i 0 →
      checkOpenBLT (.data v) = .NotDetected) ∧
    (∀ v : List Nat, 8 ≤ v.length →
      (∀ i < 4, v.getD i 0 = openbltMagicNumber.getD i 0) →
      checkOpenBLT (.data v) =
        .BootloaderDetected (v.getD 4 0) (v.getD 5 0)) ∧
    checkOpenBLT (.data [0x50, 0x00, 0x49, 0x00, 0x02, 0x01, 0xFF, 0xFF]) =
      .BootloaderDetected 2 1 := by
  refine ⟨rfl, rfl, ?_, ?_, ?_, by decide⟩
  · intro v h
    simp [checkOpenBLT, h]
  · intro v i hi hne
    by_cases hlen : v.length < 8
    · simp [checkOpenBLT, hlen]
    · have hall : ¬ ((List.range 4).all
          (fun j => v.getD j 0 == openbltMagicNumber.getD j 0) = true) := by
        intro hall
        rw [List.all_eq_true] at hall
        have hb := hall i (List.mem_range.mpr hi)
        exact hne (by simpa using hb)
      simp only [checkOpenBLT]
      rw [if_neg hlen, if_neg hall]
  · intro v hlen hmagic
    have h8 : ¬ v.length < 8 := by omega
    have hall : (List.range 4).all
        (fun j => v.getD j 0 == openbltMagicNumber.getD j 0) = true := by
      rw [List.all_eq_true]
      intro j hj
      simpa using hmagic j (List.mem_range.mp hj)
    simp only [checkOpenBLT]
    rw [if_neg h8, if_pos hall]

/-- Witness for C3 on a matching header with version bytes 7 and 9. -/
theorem C3_checkOpenBLT_classification_witness :
    checkOpenBLT (.data [0x50, 0x00, 0x49, 0x00, 7, 9, 1, 2]) =
      .BootloaderDetected 7 9 :=
  C3_checkOpenBLT_classification.2.2.2.2.1
    [0x50, 0x00, 0x49, 0x00, 7, 9, 1, 2] (by decide) (by decide)

/-! ### Claim C6: no checksum verification of the identity response -/

/-- Counterexample to claim C6: the code never recomputes or compares the
response checksum.  For the five text bytes of `RUSEF` (whose CRC-32 is not
zero) delivered with an all-zero trailing checksum field, `getSignature`
surfaces the text and its complete log trace contains no integrity warning of
any kind; the run is byte-for-byte identical to the run whose trailing
checksum is correct. -/
theorem C6_counterexample :
    calculateCrc32 [82, 85, 83, 69, 70] ≠ 0 ∧
    getSignature ⟨.data [5, 0], [.chunk ([82, 85, 83, 69, 70] ++ [0, 0, 0, 0])]⟩ =
      ([.requestingSignature, .sentRequest,
          .receivedSignature [82, 85, 83, 69, 70]],
        .sig [82, 85, 83, 69, 70]) ∧
    getSignature ⟨.data [5, 0], [.chunk ([82, 85, 83, 69, 70] ++ [0, 0, 0, 0])]⟩ =
      getSignature ⟨.data [5, 0],
        [.chunk ([82, 85, 83, 69, 70] ++
          u32LE (calculateCrc32 [82, 85, 83, 69, 70]))]⟩ :=
  ⟨by decide, by decide, by decide⟩

/-- Claim C6 (amended): after reading the identity response body the code
performs no checksum verification at all — whenever the body read completes,
the identity text (the first `length` bytes of the buffer) is surfaced
unconditionally, regardless of the value of the trailing four checksum bytes,
and the log trace is always the fixed success trace, which contains no
integrity warning. -/
theorem C6_no_checksum_verification (lb : List Nat) (ds : List Delivery)
    (buf : List Nat) (hlb : ¬ lb.length < 2)
    (hok : readBody (lb.getD 0 0 + 256 * lb.getD 1 0 + 4) ds = .ok buf) :
    getSignature ⟨.data lb, ds⟩ =
      ([.requestingSignature, .sentRequest,
          .receivedSignature (buf.take (lb.getD 0 0 + 256 * lb.getD 1 0))],
        .sig (buf.take (lb.getD 0 0 + 256 * lb.getD 1 0))) := by
  simp only [getSignature]
  rw [if_neg hlb, hok]

/-- Witness for C6 (amended) at the mismatching-checksum input. -/
theorem C6_no_checksum_verification_witness :
    getSignature ⟨.data [5, 0], [.chunk [82, 85, 83, 69, 70, 0, 0, 0, 0]]⟩ =
      ([.requestingSignature, .sentRequest,
          .receivedSignature ([82, 85, 83, 69, 70, 0, 0, 0, 0].take
            ([5, 0].getD 0 0 + 256 * [5, 0].getD 1 0))],
        .sig ([82, 85, 83, 69, 70, 0, 0, 0, 0].take
          ([5, 0].getD 0 0 + 256 * [5, 0].getD 1 0))) :=
  C6_no_checksum_verification [5, 0] [.chunk [82, 85, 83, 69, 70, 0, 0, 0, 0]]
    [82, 85, 83, 69, 70, 0, 0, 0, 0] (by decide) (by decide)

/-! ### Claims C8 and C9: the sequencer around the handshake -/

/-- Claim C8: every failure of identity retrieval — a timed-out or closed
first read, a truncated (shorter than 2 bytes) length chunk, or a close during
the body read — yields the `null` signature (`IdentityUnavailable`), yet the
sequencer still reaches the streaming read loop, exactly as on success. -/
theorem C8_identity_failure_not_fatal (probeRead : ReadResult)
    (d : DeviceBehavior)
    (hprobe : checkOpenBLT probeRead = .NotDetected)
    (hfail : d.lengthRead = .timedOut ∨ d.lengthRead = .closed ∨
      (∃ lb, d.lengthRead = .data lb ∧ lb.length < 2) ∨
      (∃ lb, d.lengthRead = .data lb ∧ 2 ≤ lb.length ∧
        readBody (lb.getD 0 0 + 256 * lb.getD 1 0 + 4) d.bodyDeliveries =
          .closed)) :
    (connectAndSendMessage probeRead d).signatureOutcome =
      some .nullResult ∧
    (connectAndSendMessage probeRead d).streaming = true := by
  have hout : (getSignature d).2 = .nullResult := by
    rcases hfail with h | h | ⟨lb, h, hlen⟩ | ⟨lb, h, hlen, hclosed⟩
    · simp [getSignature, h]
    · simp [getSignature, h]
    · simp only [getSignature, h]
      rw [if_pos hlen]
    · have hlen' : ¬ lb.length < 2 := by omega
      simp only [getSignature, h]
      rw [if_neg hlen', hclosed]
  unfold connectAndSendMessage
  rw [hprobe]
  simp [hout]

/-- Witness for C8 at a silent device (probe times out, identity read times
out). -/
theorem C8_identity_failure_not_fatal_witness :
    (connectAndSendMessage .timedOut ⟨.timedOut, []⟩).signatureOutcome =
      some .nullResult ∧
    (connectAndSendMessage .timedOut ⟨.timedOut, []⟩).streaming = true :=
  C8_identity_failure_not_fatal .timedOut ⟨.timedOut, []⟩ (by decide)
    (Or.inl rfl)

/-- Claim C9: whenever the probe classifies `BootloaderDetected`, the
sequencer writes nothing to the transport before streaming — in particular
zero writes of the command `0x41` identity-request packet — and transitions
directly to the streaming read loop. -/
theorem C9_bootloader_no_identity_write (probeRead : ReadResult)
    (d : DeviceBehavior) (major minor : Nat)
    (hprobe : checkOpenBLT probeRead = .BootloaderDetected major minor) :
    (connectAndSendMessage probeRead d).binaryWrites = [] ∧
    (connectAndSendMessage probeRead d).streaming = true := by
  unfold connectAndSendMessage
  rw [hprobe]
  exact ⟨rfl, rfl⟩

/-- Witness for C9 at the concrete bootloader header. -/
theorem C9_bootloader_no_identity_write_witness :
    (connectAndSendMessage
        (.data [0x50, 0x00, 0x49, 0x00, 0x02, 0x01, 0xFF, 0xFF])
        ⟨.timedOut, []⟩).binaryWrites = [] ∧
    (connectAndSendMessage
        (.data [0x50, 0x00, 0x49, 0x00, 0x02, 0x01, 0xFF, 0xFF])
        ⟨.timedOut, []⟩).streaming = true :=
  C9_bootloader_no_identity_write
    (.data [0x50, 0x00, 0x49, 0x00, 0x02, 0x01, 0xFF, 0xFF])
    ⟨.timedOut, []⟩ 2 1 (by decide)
